import Mathlib

/-!
Shallow embedding of `src/command.ts` (TakumiPro Command.ts v1.2.0), a
Discord text-command dispatch engine: argument validators (String / Rest /
Number), the command argument-chain validation, the dispatch guard, the
command collector (registry), and the guild-prefix cache.

Modelling conventions:
* JavaScript exceptions become `Except`: `ParseError`, `TooManyArgumentsError`
  and `PermissionError` are the constructors of `CmdError`.
* JavaScript numbers are modelled as exact rationals (`Rat`); every token the
  number grammar accepts denotes a decimal, which `Rat` represents exactly.
* Asynchronous callbacks (permission predicates, prefix persistence reads and
  writes) are awaited sequentially by the source, so they are modelled as pure
  functions together with explicit logs of the external calls made.
* JavaScript objects used as string-keyed records become association lists in
  insertion order, where assigning an existing key overwrites it in place.
-/

namespace Takumi

/-- Mirrors `ParseError` (command.ts 7-13): carries a message and the offending
Argument, modelled here by the argument's name. -/
structure ParseErr where
  msg : String
  argName : String
deriving Repr, DecidableEq

/-- The throwable failures of the pipeline: `ParseError`,
`TooManyArgumentsError` (command.ts 15-21, carries the first recorded
optional-argument `ParseError`, if any) and `PermissionError`
(command.ts 23-27). -/
inductive CmdError where
  | parse (e : ParseErr)
  | tooMany (msg : String) (first : Option ParseErr)
  | permission (msg : String)
deriving Repr, DecidableEq

/-- A value stored in the parsed-argument record: a validated string, a
validated number, or JavaScript `undefined` (an optional Argument whose
default was never set). -/
inductive Val where
  | str (s : String)
  | num (q : Rat)
  | undefined
deriving Repr, DecidableEq

/-- JavaScript `s.split(" ")` followed by `shift()` and `join(" ")` of the
rest (the tokenisation used by StringArgument.validate, command.ts 121-125,
and NumberArgument.validate, command.ts 193-195): the first token is
everything before the first space, the rest is everything after it,
untouched (`""` when there is no space). -/
def splitFirst (s : String) : String × String :=
  match s.splitOn " " with
  | [] => (s, "")
  | tok :: rest => (tok, String.intercalate " " rest)

/-- Constraints and base-class fields of a `StringArgument`
(command.ts 29-42 and 103-119).  The base-class default value `_default`
is a string or `undefined`, hence `Option String`.  The regular expression
constraint is modelled as its match predicate. -/
structure StringArgCfg where
  name : String := "_"
  optionalFlag : Bool := false
  dflt : Option String := none
  regex : Option (String → Bool) := none
  maxlen : Option Nat := none
  minlen : Option Nat := none
  whitelist : Option (List String) := none
  uppercase : Bool := false
  lowercase : Bool := false

/-- Mirrors `StringArgument._validate` (command.ts 127-135): case-fold, then check
minimum length, maximum length, whitelist membership and regex match, in
that order, throwing `ParseError` at the first failed check. -/
def StringArgCfg.validateCore (cfg : StringArgCfg) (arg0 : String) (rest : String) :
    Except ParseErr (String × String) :=
  let a1 := if cfg.uppercase then arg0.toUpper else arg0
  let a  := if cfg.lowercase then a1.toLower else a1
  if (cfg.minlen.map (fun m => decide (a.length < m))).getD false then
    .error ⟨"String length not greater or equal! Expected at least " ++
            toString (cfg.minlen.getD 0) ++ ", but got " ++ toString a.length, cfg.name⟩
  else if (cfg.maxlen.map (fun m => decide (m < a.length))).getD false then
    .error ⟨"String length not less or equal! Maximum " ++
            toString (cfg.maxlen.getD 0) ++ " chars allowed, but got " ++
            toString a.length, cfg.name⟩
  else if (cfg.whitelist.map (fun w => !(w.contains a))).getD false then
    .error ⟨"Invalid Input for " ++ a, cfg.name⟩
  else if (cfg.regex.map (fun re => !(re a))).getD false then
    .error ⟨"Regex missmatch, the input did not match the expression", cfg.name⟩
  else
    .ok (a, rest)

/-- Mirrors `StringArgument.validate` (command.ts 121-125): split off the first
space-delimited token and validate it; the untouched tail is the rest. -/
def StringArgCfg.validate (cfg : StringArgCfg) (args : String) :
    Except ParseErr (String × String) :=
  let p := splitFirst args
  cfg.validateCore p.1 p.2

/-- Mirrors `RestArgument.validate` (command.ts 171-175): the whole remaining input
is the token, the tail is always empty; same checks as String. -/
def StringArgCfg.validateRest (cfg : StringArgCfg) (args : String) :
    Except ParseErr (String × String) :=
  cfg.validateCore args ""

/-- Mirrors `StringArgument.forceUpperCase` (command.ts 152-156). -/
def StringArgCfg.forceUpperCase (cfg : StringArgCfg) : StringArgCfg :=
  { cfg with lowercase := false, uppercase := true }

/-- Mirrors `StringArgument.forceLowerCase` (command.ts 158-162). -/
def StringArgCfg.forceLowerCase (cfg : StringArgCfg) : StringArgCfg :=
  { cfg with lowercase := true, uppercase := false }

/-- Digit string to natural number (the value `parseFloat` assigns to a run
of decimal digits). -/
def digitsToNat (s : String) : Nat :=
  s.foldl (fun n c => n * 10 + (c.toNat - 48)) 0

/-- The combined grammar-and-parse step of `NumberArgument.validate`
(command.ts 196-197): the token must match `-?\d+(\.\d+)?` and is read as an
exact decimal; `none` models the `ParseError` thrown on mismatch. -/
def parseNumToken (s : String) : Option Rat :=
  let sign : Rat := if s.startsWith "-" then -1 else 1
  let t := if s.startsWith "-" then s.drop 1 else s
  match t.splitOn "." with
  | [intPart] =>
      if intPart.length ≥ 1 && intPart.all Char.isDigit then
        some (sign * (digitsToNat intPart : Rat))
      else none
  | [intPart, fracPart] =>
      if intPart.length ≥ 1 && intPart.all Char.isDigit &&
         fracPart.length ≥ 1 && fracPart.all Char.isDigit then
        some (sign * ((digitsToNat intPart : Rat) +
          (digitsToNat fracPart : Rat) / ((10 : Rat) ^ fracPart.length)))
      else none
  | _ => none

/-- Constraints and base-class fields of a `NumberArgument`
(command.ts 177-191). -/
structure NumberArgCfg where
  name : String := "_"
  optionalFlag : Bool := false
  dflt : Option String := none
  min : Option Rat := none
  max : Option Rat := none
  int : Bool := false
  forcePositive : Bool := false
  forceNegative : Bool := false

/-- Mirrors `NumberArgument.validate` (command.ts 193-204): take the first
space-delimited token, require the signed-decimal grammar, then check
minimum, maximum, integer-only (`num % 1 !== 0`, i.e. a non-trivial
denominator), forced positive, forced negative — in that order, throwing
`ParseError` at the first failure. -/
def NumberArgCfg.validate (cfg : NumberArgCfg) (args : String) :
    Except ParseErr (Rat × String) :=
  let p := splitFirst args
  match parseNumToken p.1 with
  | none => .error ⟨"\"" ++ p.1 ++ "\" is not a valid number", cfg.name⟩
  | some num =>
    if (cfg.min.map (fun m => decide (num < m))).getD false then
      .error ⟨"Number not greater or equal! Expected at least " ++
              toString (cfg.min.getD 0) ++ ", but got " ++ toString num, cfg.name⟩
    else if (cfg.max.map (fun m => decide (m < num))).getD false then
      .error ⟨"Number not less or equal! Expected at least " ++
              toString (cfg.max.getD 0) ++ ", but got " ++ toString num, cfg.name⟩
    else if cfg.int && num.den != 1 then
      .error ⟨"Given Number is not an Integer! (" ++ toString num ++ ")", cfg.name⟩
    else if cfg.forcePositive && decide (num ≤ 0) then
      .error ⟨"Given Number is not Positive! (" ++ toString num ++ ")", cfg.name⟩
    else if cfg.forceNegative && decide (0 ≤ num) then
      .error ⟨"Given Number is not Negative! (" ++ toString num ++ ")", cfg.name⟩
    else
      .ok (num, p.2)

/-- The closed family of Argument kinds a Command can own: `StringArgument`,
`RestArgument` (command.ts 171-175, a StringArgument consuming the whole
remaining input) and `NumberArgument`. -/
inductive Arg where
  | str (cfg : StringArgCfg)
  | rest (cfg : StringArgCfg)
  | num (cfg : NumberArgCfg)

/-- Mirrors `Argument.getName` (command.ts 90-92). -/
def Arg.name : Arg → String
  | .str cfg => cfg.name
  | .rest cfg => cfg.name
  | .num cfg => cfg.name

/-- Mirrors `Argument.isOptional` (command.ts 63-65). -/
def Arg.isOptional : Arg → Bool
  | .str cfg => cfg.optionalFlag
  | .rest cfg => cfg.optionalFlag
  | .num cfg => cfg.optionalFlag

/-- Mirrors `Argument.getDefault` (command.ts 55-57): the stored default string, or
`undefined` when none was set. -/
def Arg.getDefault : Arg → Val
  | .str cfg | .rest cfg | .num cfg =>
    match cfg.dflt with
    | some s => .str s
    | none => .undefined

/-- Polymorphic `Argument.validate`, dispatching on the argument kind
(command.ts 121, 172, 193). -/
def Arg.validate : Arg → String → Except ParseErr (Val × String)
  | .str cfg, s => (cfg.validate s).map (fun p => (.str p.1, p.2))
  | .rest cfg, s => (cfg.validateRest s).map (fun p => (.str p.1, p.2))
  | .num cfg, s => (cfg.validate s).map (fun p => (.num p.1, p.2))

/-- Assignment `result[k] = v` on a JavaScript object modelled as an
insertion-ordered association list: an existing key is overwritten in
place, a new key is appended. -/
def setKey (m : List (String × Val)) (k : String) (v : Val) : List (String × Val) :=
  if m.any (fun p => p.1 == k) then
    m.map (fun p => if p.1 == k then (k, v) else p)
  else m ++ [(k, v)]

/-- The platform capability bits a command can require from the bot
(`Discord.Permissions`); only their identity matters to the dispatch guard. -/
inductive Perm where
  | sendMessages
  | embedLinks
  | manageMessages
  | administrator
deriving Repr, DecidableEq

/-- A `Command` (command.ts 234-251 and 346-354), parametrised by the type
`Ctx` of the acting context handed to permission predicates (the Discord
message/client in the source).  Predicates are awaited sequentially, so each
is a pure `Ctx → Bool`.  The registered execution handlers only matter to
the claims through whether they run, which the dispatch outcome records. -/
structure Cmd (Ctx : Type) where
  name : String
  aliases : List String := []
  args : List Arg := []
  permissionHandlers : List (Ctx → Bool) := []
  requiredPerms : List Perm := []

/-- Mirrors `CommandBase.isAllowed` (command.ts 318-321): `Promise.all` over every
permission predicate, then `res.every(r => r)` — the logical AND, vacuously
true on an empty list. -/
def Cmd.isAllowed {Ctx : Type} (cmd : Cmd Ctx) (client : Ctx) : Bool :=
  (cmd.permissionHandlers.map (fun cb => cb client)).all (fun r => r)

/-- Mirrors `Command.hasPermission` (command.ts 438-440) forwards to `isAllowed`. -/
def Cmd.hasPermission {Ctx : Type} (cmd : Cmd Ctx) (client : Ctx) : Bool :=
  cmd.isAllowed client

/-- The body of `Command.validateArgs`'s `forEach` loop (command.ts 406-418)
unrolled into structural recursion over the argument list.  State: the
remaining input, the result record and the recorded optional-argument
errors.  A success stores the value and trims the tail; a `ParseError` on an
optional Argument stores the default, records the error and leaves the
remaining input unchanged; a `ParseError` on a required Argument
propagates. -/
def runArgChain : List Arg → String → List (String × Val) → List ParseErr →
    Except ParseErr (List (String × Val) × String × List ParseErr)
  | [], args, result, errors => .ok (result, args, errors)
  | a :: tl, args, result, errors =>
    match a.validate args with
    | .ok (v, rest) => runArgChain tl rest.trim (setKey result a.name v) errors
    | .error e =>
      if a.isOptional then
        runArgChain tl args (setKey result a.name a.getDefault) (errors ++ [e])
      else
        .error e

/-- Mirrors `Command.validateArgs` (command.ts 402-420): trim the raw argument text,
then run the argument chain in declaration order. -/
def Cmd.validateArgs {Ctx : Type} (cmd : Cmd Ctx) (args : String) :
    Except ParseErr (List (String × Val) × String × List ParseErr) :=
  runArgChain cmd.args args.trim [] []

/-- Mirrors `Command.validate` (command.ts 422-426): if input remains after all
Arguments were processed, throw `TooManyArgumentsError` carrying
`errors.shift()` — the first recorded optional-argument error, if any. -/
def Cmd.validate {Ctx : Type} (cmd : Cmd Ctx) (args : String) :
    Except CmdError (List (String × Val)) :=
  match cmd.validateArgs args with
  | .error e => .error (.parse e)
  | .ok (result, remaining, errors) =>
    if remaining.length > 0 then .error (.tooMany "Too many argument!" errors.head?)
    else .ok result

/-- Terminal outcome of one `Command.dispatch` attempt (command.ts 442-479).
`dmMissingSendPerm` and `reportMissingPerms` are the two early returns that
notify about missing bot capabilities without throwing; `failed e` is a
thrown `e`; `executed m` means `_dispatchCommand` invoked every registered
execution handler with the validated argument record `m`
(command.ts 341). -/
inductive DispatchOutcome where
  | dmMissingSendPerm
  | reportMissingPerms (missing : List Perm)
  | failed (e : CmdError)
  | executed (argsMap : List (String × Val))
deriving Repr, DecidableEq

/-- Mirrors `botPermission.missing(this._permissions)` (command.ts 447): the
required capabilities the bot does not hold in the channel. -/
def Cmd.missingPerms {Ctx : Type} (cmd : Cmd Ctx) (botPerms : List Perm) : List Perm :=
  cmd.requiredPerms.filter (fun p => !(botPerms.contains p))

/-- Mirrors `Command.dispatch` (command.ts 442-479) followed by
`CommandBase._dispatchCommand` (command.ts 338-343).  Faithful to the
source's evaluation order: the missing-capability checks run first; then
`this.validate(args)` is evaluated while building the `_dispatchCommand`
argument object, so an argument-validation failure is thrown before
`_dispatchCommand` ever checks `hasPermission`; the permission check comes
next, and the execution handlers run last. -/
def Cmd.dispatch {Ctx : Type} (cmd : Cmd Ctx) (botPerms : List Perm) (client : Ctx)
    (args : String) : DispatchOutcome :=
  if (cmd.missingPerms botPerms).contains .sendMessages then
    .dmMissingSendPerm
  else if (cmd.missingPerms botPerms).length > 0 then
    .reportMissingPerms (cmd.missingPerms botPerms)
  else
    match cmd.validate args with
    | .error e => .failed e
    | .ok m =>
      if cmd.hasPermission client then .executed m
      else .failed (.permission "no permission to execute this command")

/-- Mirrors `CommandBase.getCommandNames` (command.ts 288-290): canonical name
followed by the aliases.  For registry resolution only the name components
of a command matter, so collector entries are `(name, aliases)` pairs. -/
def getCommandNames (c : String × List String) : List String :=
  c.1 :: c.2

/-- Mirrors `CommandCollector` (command.ts 482-487): the ordered list of registered
commands, reduced to their name components. -/
structure CommandCollector where
  commands : List (String × List String)

/-- Mirrors `CommandCollector.getAvailableCommands` (command.ts 509-515): the
registered commands whose canonical name or alias list contains the
lowered lookup name. -/
def CommandCollector.getAvailableCommands (col : CommandCollector) (name : String) :
    List (String × List String) :=
  col.commands.filter (fun c => (getCommandNames c).contains name.toLower)

/-- Mirrors `CommandCollector.isValidCommandName` (command.ts 489-494) as the
predicate it checks; the source throws when it is false. -/
def isValidCommandName (name : String) : Bool :=
  name.length ≥ 1 && !(name.any Char.isWhitespace)

/-- In `CommandBase.alias`, the filter predicate
`a => this._collector.getAvailableCommands(a)` passes the Array returned by
`getAvailableCommands` itself; a JavaScript Array is truthy whatever its
contents, so the predicate holds for every alias. -/
def jsArrayIsTruthy (_l : List (String × List String)) : Bool :=
  true

/-- Mirrors `CommandBase.alias` (command.ts 273-278): lower every alias, throw
(`.error`) if any fails `isValidCommandName`, then push onto the command's
alias list those lowered aliases the filter keeps. -/
def aliasAdd (col : CommandCollector) (current : List String)
    (newAliases : List String) : Except String (List String) :=
  let lowered := newAliases.map String.toLower
  if lowered.all isValidCommandName then
    .ok (current ++ lowered.filter (fun a => jsArrayIsTruthy (col.getAvailableCommands a)))
  else
    .error "invalid command name"

/-- Assignment on the string-keyed `guildPrefixCache` object: overwrite an
existing key in place, append a new one. -/
def setCacheKey (m : List (String × String)) (k v : String) : List (String × String) :=
  if m.any (fun p => p.1 == k) then
    m.map (fun p => if p.1 == k then (k, v) else p)
  else m ++ [(k, v)]

/-- Mirrors `guildId in guildPrefixCache` / `guildPrefixCache[guildId]`. -/
def cacheLookup (m : List (String × String)) (k : String) : Option String :=
  (m.find? (fun p => p.1 == k)).map (fun p => p.2)

/-- The module-level prefix configuration (command.ts 610-612):
`defaultPrefix` and whether the external `getPrefixCallback` /
`setPrefixCallback` pair is configured.  `setCallback` (command.ts 843-849)
installs both together; the external reader is modelled as a pure function
from guild id to the stored prefix string, where `""` is the falsy empty
read. -/
structure PrefixEnv where
  defaultPrefix : String
  reader : Option (String → String)
  writerConfigured : Bool

/-- The mutable prefix state: the `guildPrefixCache` object
(command.ts 613) plus logs of the external calls made — each invocation of
`getPrefixCallback` (by guild id) and each invocation of
`setPrefixCallback` (guild id and written prefix). -/
structure PrefixState where
  cache : List (String × String)
  reads : List String
  writes : List (String × String)
deriving Repr, DecidableEq

/-- Mirrors `getPrefix` (command.ts 615-634): a cache hit returns immediately; on a
miss with a reader configured, invoke the reader once; an empty (falsy)
result is written back through `setPrefixCallback` (called directly, so the
cache is not touched on this path) and the process default is returned; a
non-empty result is cached and returned; with no reader configured, return
the process default without caching. -/
def getPrefix (env : PrefixEnv) (st : PrefixState) (guildId : String) :
    String × PrefixState :=
  match cacheLookup st.cache guildId with
  | some p => (p, st)
  | none =>
    match env.reader with
    | some rd =>
      let result := rd guildId
      let st1 : PrefixState := { st with reads := st.reads ++ [guildId] }
      if result == "" then
        (env.defaultPrefix,
         { st1 with writes := st1.writes ++ [(guildId, env.defaultPrefix)] })
      else
        (result, { st1 with cache := setCacheKey st1.cache guildId result })
    | none => (env.defaultPrefix, st)

/-- Mirrors `setPrefix` (command.ts 636-645): update the cache unconditionally,
then forward to `setPrefixCallback` when it is configured. -/
def setPrefix (env : PrefixEnv) (st : PrefixState) (guildId pre : String) :
    PrefixState :=
  if env.writerConfigured then
    { st with cache := setCacheKey st.cache guildId pre,
              writes := st.writes ++ [(guildId, pre)] }
  else
    { st with cache := setCacheKey st.cache guildId pre }

/-! ## Helper lemmas -/

/-- Overwriting an existing cache key makes it the looked-up value. -/
theorem cacheLookup_map_overwrite (m : List (String × String)) (k v : String) :
    m.any (fun p => p.1 == k) = true →
    cacheLookup (m.map (fun p => if p.1 == k then (k, v) else p)) k = some v := by
  intro h
  induction m with
  | nil => simp at h
  | cons hd tl ih =>
    by_cases hk : (hd.1 == k) = true
    · rw [List.map_cons, if_pos hk]
      unfold cacheLookup
      rw [List.find?_cons_of_pos _ (by simp)]
      rfl
    · rw [List.map_cons, if_neg hk]
      simp only [List.any_cons, hk, Bool.false_or] at h
      unfold cacheLookup at ih ⊢
      rw [List.find?_cons_of_neg _ (by simp [hk])]
      exact ih h

/-- Appending a fresh cache key makes it the looked-up value. -/
theorem cacheLookup_append_fresh (m : List (String × String)) (k v : String) :
    m.any (fun p => p.1 == k) = false →
    cacheLookup (m ++ [(k, v)]) k = some v := by
  intro h
  induction m with
  | nil =>
    unfold cacheLookup
    rw [List.nil_append, List.find?_cons_of_pos _ (by simp)]
    rfl
  | cons hd tl ih =>
    simp only [List.any_cons, Bool.or_eq_false_iff] at h
    rw [List.cons_append]
    unfold cacheLookup at ih ⊢
    rw [List.find?_cons_of_neg _ (by simp [h.1])]
    exact ih h.2

/-- Looking up the key just written through `setCacheKey` yields the written
value. -/
theorem cacheLookup_setCacheKey (m : List (String × String)) (k v : String) :
    cacheLookup (setCacheKey m k v) k = some v := by
  unfold setCacheKey
  by_cases h : m.any (fun p => p.1 == k) = true
  · rw [if_pos h]; exact cacheLookup_map_overwrite m k v h
  · rw [if_neg h]
    refine cacheLookup_append_fresh m k v ?_
    simp only [Bool.not_eq_true] at h
    exact h

/-- Mirrors `Command.validate` only ever throws `ParseError` or
`TooManyArgumentsError`, never `PermissionError`. -/
theorem validate_never_permission {Ctx : Type} (cmd : Cmd Ctx) (args msg : String) :
    cmd.validate args ≠ .error (.permission msg) := by
  unfold Cmd.validate
  cases h : cmd.validateArgs args with
  | error e => simp
  | ok t =>
    obtain ⟨r, rem, errs⟩ := t
    by_cases hr : rem.length > 0 <;> simp [hr]

/-! ## Concrete fixtures used by the claims -/

/-- A registry holding commands named "a" and "b", neither with aliases. -/
def collectorAB : CommandCollector := ⟨[("a", []), ("b", [])]⟩

/-- A command with no Arguments and one always-false permission predicate. -/
def cmdNoPermZeroArgs : Cmd Unit :=
  { name := "t", permissionHandlers := [fun _ => false] }

/-- Does a dispatch outcome consist of a thrown `PermissionError`? -/
def isPermissionFailure : DispatchOutcome → Bool
  | .failed (.permission _) => true
  | _ => false

/-- A prefix environment whose external reader always yields the empty
(falsy) string, with the process default `"!"`. -/
def envEmptyRead : PrefixEnv := ⟨"!", some (fun _ => ""), true⟩

/-- The empty prefix state: empty cache, no external calls yet. -/
def stEmpty : PrefixState := ⟨[], [], []⟩

/-! ## C1 — dispatch phase order -/

/-- C1 counterexample: a Command with an always-false permission predicate
and zero Arguments, dispatched on argument text `"foo"` (invalid: trailing
input), fails with `TooManyArgumentsError`, not `PermissionError` — the
claimed order (permission check before argument validation) does not hold:
`Command.dispatch` evaluates `this.validate(args)` while building the
`_dispatchCommand` argument object, before `_dispatchCommand` checks
`hasPermission`. -/
theorem dispatch_order_counterexample :
    cmdNoPermZeroArgs.isAllowed () = false ∧
    (cmdNoPermZeroArgs.validate "foo").isOk = false ∧
    cmdNoPermZeroArgs.dispatch [] () "foo" =
      .failed (.tooMany "Too many argument!" none) ∧
    isPermissionFailure (cmdNoPermZeroArgs.dispatch [] () "foo") = false := by
  refine ⟨?_, ?_, ?_, ?_⟩ <;> with_unfolding_all rfl

/-- C1 (amended): per dispatch attempt the phases run in the order
bot-capability check, then argument-chain validation, then permission check
(logical AND over all registered predicates), then execution of all
handlers; when both a permission predicate fails and the argument text is
invalid, the dispatch fails with the argument-validation error (never
`PermissionError`), and handlers run only after all three earlier phases
pass. -/
theorem dispatch_phase_order {Ctx : Type} (cmd : Cmd Ctx) (botPerms : List Perm)
    (client : Ctx) (args : String) :
    (cmd.missingPerms botPerms ≠ [] →
      cmd.dispatch botPerms client args = .dmMissingSendPerm ∨
      cmd.dispatch botPerms client args =
        .reportMissingPerms (cmd.missingPerms botPerms)) ∧
    (∀ e, cmd.missingPerms botPerms = [] → cmd.validate args = .error e →
      cmd.dispatch botPerms client args = .failed e) ∧
    (∀ m, cmd.missingPerms botPerms = [] → cmd.validate args = .ok m →
      cmd.dispatch botPerms client args =
        (if cmd.hasPermission client then .executed m
         else .failed (.permission "no permission to execute this command"))) ∧
    (∀ m, cmd.dispatch botPerms client args = .executed m →
      cmd.missingPerms botPerms = [] ∧ cmd.validate args = .ok m ∧
      cmd.hasPermission client = true) := by
  refine ⟨?_, ?_, ?_, ?_⟩
  · intro hne
    by_cases hsend : ((cmd.missingPerms botPerms).contains .sendMessages) = true
    · left
      unfold Cmd.dispatch
      rw [if_pos hsend]
    · right
      unfold Cmd.dispatch
      rw [if_neg hsend, if_pos (List.length_pos.mpr hne)]
  · intro e hmiss hval
    unfold Cmd.dispatch
    rw [hmiss, hval]
    simp
  · intro m hmiss hval
    unfold Cmd.dispatch
    rw [hmiss, hval]
    simp
  · intro m hdisp
    unfold Cmd.dispatch at hdisp
    by_cases hsend : ((cmd.missingPerms botPerms).contains .sendMessages) = true
    · rw [if_pos hsend] at hdisp
      exact absurd hdisp (by simp)
    · rw [if_neg hsend] at hdisp
      by_cases hlen : (cmd.missingPerms botPerms).length > 0
      · rw [if_pos hlen] at hdisp
        exact absurd hdisp (by simp)
      · rw [if_neg hlen] at hdisp
        have hmiss : cmd.missingPerms botPerms = [] :=
          List.eq_nil_of_length_eq_zero (by omega)
        cases hval : cmd.validate args with
        | error e =>
          rw [hval] at hdisp
          exact absurd hdisp (by simp)
        | ok m2 =>
          rw [hval] at hdisp
          have hdisp2 : (if cmd.hasPermission client = true then
                DispatchOutcome.executed m2
              else DispatchOutcome.failed
                (.permission "no permission to execute this command")) =
              DispatchOutcome.executed m := hdisp
          by_cases hperm : cmd.hasPermission client = true
          · rw [if_pos hperm] at hdisp2
            injection hdisp2 with hm
            subst hm
            exact ⟨hmiss, rfl, hperm⟩
          · rw [if_neg hperm] at hdisp2
            exact absurd hdisp2 (by simp)

/-- C1 amended-claim witness: the order theorem applied to the concrete
fixture shows the argument error preempting the failing permission
predicate. -/
theorem dispatch_phase_order_witness :
    cmdNoPermZeroArgs.dispatch [] () "foo" =
      .failed (.tooMany "Too many argument!" none) :=
  (dispatch_phase_order cmdNoPermZeroArgs [] () "foo").2.1
    (.tooMany "Too many argument!" none) rfl (by with_unfolding_all rfl)

/-! ## C2 — alias collision -/

/-- C2 (code bug): with commands "a" and "b" registered, aliasing "a" onto
another command keeps the colliding alias instead of silently omitting it.
The filter predicate in `CommandBase.alias` is the Array returned by
`getAvailableCommands`, and a JavaScript Array is truthy even when it holds
matches, so the filter never drops anything; a non-colliding alias "c" is
kept as well. -/
theorem alias_collision_kept :
    (collectorAB.getAvailableCommands "a").length = 1 ∧
    aliasAdd collectorAB [] ["a"] = .ok ["a"] ∧
    aliasAdd collectorAB [] ["c"] = .ok ["c"] := by
  refine ⟨?_, ?_, ?_⟩ <;> with_unfolding_all rfl

/-! ## C3 — prefix cache miss with an external reader -/

/-- C3 counterexample: with an external reader that yields the empty string,
a `getPrefix` miss returns the default `"!"` and writes it back through the
external writer, but does not cache it — the scope id is still absent from
the cache, and a second `getPrefix` for the same scope id invokes the
reader again (two logged reads), contradicting the claimed caching of the
default. -/
theorem getPrefix_empty_read_not_cached :
    (getPrefix envEmptyRead stEmpty "g").1 = "!" ∧
    (getPrefix envEmptyRead stEmpty "g").2.reads = ["g"] ∧
    (getPrefix envEmptyRead stEmpty "g").2.writes = [("g", "!")] ∧
    cacheLookup (getPrefix envEmptyRead stEmpty "g").2.cache "g" = none ∧
    (getPrefix envEmptyRead (getPrefix envEmptyRead stEmpty "g").2 "g").2.reads
      = ["g", "g"] := by
  refine ⟨?_, ?_, ?_, ?_, ?_⟩ <;> with_unfolding_all rfl

/-- C3 (amended): for every scope id absent from the prefix cache, when an
external reader is configured, `getPrefix` performs exactly one external
read; if that read yields empty, it writes the process-wide default prefix
back through the external writer and returns the default without caching
it (so a subsequent `getPrefix` for the same scope id misses the cache and
invokes the reader again); a non-empty read is cached; when no external
reader is configured, `getPrefix` returns the process-wide default without
caching. -/
theorem getPrefix_miss_behavior (env : PrefixEnv) (st : PrefixState) (g : String)
    (hmiss : cacheLookup st.cache g = none) :
    (∀ rd, env.reader = some rd →
      ((getPrefix env st g).2.reads = st.reads ++ [g] ∧
       (rd g = "" →
         getPrefix env st g =
           (env.defaultPrefix,
            { cache := st.cache, reads := st.reads ++ [g],
              writes := st.writes ++ [(g, env.defaultPrefix)] })) ∧
       (rd g ≠ "" →
         getPrefix env st g =
           (rd g,
            { cache := setCacheKey st.cache g (rd g),
              reads := st.reads ++ [g], writes := st.writes })))) ∧
    (env.reader = none → getPrefix env st g = (env.defaultPrefix, st)) := by
  constructor
  · intro rd hrd
    refine ⟨?_, ?_, ?_⟩
    · by_cases he : (rd g == "") = true
      · simp [getPrefix, hmiss, hrd, he]
      · simp [getPrefix, hmiss, hrd, he]
    · intro he
      have hb : (rd g == "") = true := by simp [he]
      simp [getPrefix, hmiss, hrd, hb]
    · intro he
      have hb : (rd g == "") = false := by simp [he]
      simp [getPrefix, hmiss, hrd, hb]
  · intro hnone
    simp [getPrefix, hmiss, hnone]

/-- C3 amended-claim witness: the miss theorem applied to the concrete
always-empty reader yields the uncached default. -/
theorem getPrefix_miss_behavior_witness :
    getPrefix envEmptyRead stEmpty "g" =
      ("!", { cache := [], reads := ["g"], writes := [("g", "!")] }) :=
  ((getPrefix_miss_behavior envEmptyRead stEmpty "g" rfl).1
      (fun _ => "") rfl).2.1 rfl

/-! ## C8 — setPrefix / getPrefix round trip -/

/-- C8: `setPrefix` updates the cache unconditionally and forwards to the
external writer exactly when one is configured; a subsequent `getPrefix`
for the same scope id answers from the cache — it returns the set value and
leaves the state untouched, in particular without invoking the external
reader (the read log is unchanged). -/
theorem setPrefix_getPrefix_roundtrip (env : PrefixEnv) (st : PrefixState)
    (g p : String) :
    cacheLookup (setPrefix env st g p).cache g = some p ∧
    (setPrefix env st g p).writes =
      (if env.writerConfigured then st.writes ++ [(g, p)] else st.writes) ∧
    (setPrefix env st g p).reads = st.reads ∧
    getPrefix env (setPrefix env st g p) g = (p, setPrefix env st g p) := by
  have hc : cacheLookup (setPrefix env st g p).cache g = some p := by
    unfold setPrefix
    by_cases hw : env.writerConfigured = true
    · rw [if_pos hw]
      exact cacheLookup_setCacheKey st.cache g p
    · rw [if_neg hw]
      exact cacheLookup_setCacheKey st.cache g p
  refine ⟨hc, ?_, ?_, ?_⟩
  · unfold setPrefix
    by_cases hw : env.writerConfigured = true <;> simp [hw]
  · unfold setPrefix
    by_cases hw : env.writerConfigured = true <;> simp [hw]
  · simp [getPrefix, hc]

/-! ## C4 — optional-argument fallback -/

/-- Fixture: an optional String Argument named "n" with default "x" and
minimum length 5, so the two-character input "ab" violates its
constraint. -/
def argOneOptional : Arg :=
  .str { name := "n", optionalFlag := true, dflt := some "x", minlen := some 5 }

/-- Fixture: a Command owning only `argOneOptional`. -/
def cmdOneOptional : Cmd Unit := { name := "c", args := [argOneOptional] }

/-- The error recorded when "ab" is validated against `argOneOptional`. -/
def errOneOptional : ParseErr :=
  ⟨"String length not greater or equal! Expected at least 5, but got 2", "n"⟩

/-- C4: when an optional Argument's validate raises `ParseError`, the chain
records the error in the error list, stores the Argument's default under
the Argument's name in the result record, does not raise, and continues
with the remaining input unchanged (the failing token is not consumed);
concretely, the Command with one optional String Argument (default "x") on
an input failing its constraint yields the record mapping "n" to "x". -/
theorem optional_argument_fallback
    (a : Arg) (tl : List Arg) (args : String) (result : List (String × Val))
    (errors : List ParseErr) (e : ParseErr)
    (hopt : a.isOptional = true) (hfail : a.validate args = .error e) :
    runArgChain (a :: tl) args result errors =
      runArgChain tl args (setKey result a.name a.getDefault) (errors ++ [e]) ∧
    cmdOneOptional.validateArgs "ab" =
      .ok ([("n", .str "x")], "ab", [errOneOptional]) := by
  constructor
  · conv_lhs => rw [runArgChain.eq_def]
    simp [hfail, hopt]
  · with_unfolding_all rfl

/-- C4 witness: the fallback step applied to the concrete optional Argument
on the failing input "ab". -/
theorem optional_argument_fallback_witness :
    runArgChain [argOneOptional] "ab" [] [] =
      runArgChain [] "ab" (setKey [] argOneOptional.name argOneOptional.getDefault)
        ([] ++ [errOneOptional]) :=
  (optional_argument_fallback argOneOptional [] "ab" [] [] errOneOptional rfl
    (by with_unfolding_all rfl)).1

/-! ## C5 — trailing unconsumed input -/

/-- Fixture: a Command with zero Arguments. -/
def cmdZeroArgs : Cmd Unit := { name := "c" }

/-- C5: after all Arguments are processed, `Command.validate` throws
`TooManyArgumentsError` if and only if the remaining input is non-empty,
and the thrown error carries the first recorded optional-argument
`ParseError` (if any) as context; a zero-Argument Command fails on input
"foo" with `TooManyArgumentsError` and succeeds on input "" with an empty
record. -/
theorem validate_trailing_input {Ctx : Type} (cmd : Cmd Ctx) (args : String)
    (result : List (String × Val)) (remaining : String) (errors : List ParseErr)
    (h : cmd.validateArgs args = .ok (result, remaining, errors)) :
    (cmd.validate args =
        .error (.tooMany "Too many argument!" errors.head?) ↔
      remaining.length > 0) ∧
    (cmd.validate args = .ok result ↔ remaining.length = 0) ∧
    cmdZeroArgs.validate "foo" = .error (.tooMany "Too many argument!" none) ∧
    cmdZeroArgs.validate "" = .ok [] := by
  have hv : cmd.validate args =
      (if remaining.length > 0 then
        Except.error (CmdError.tooMany "Too many argument!" errors.head?)
      else Except.ok result) := by
    unfold Cmd.validate
    rw [h]
  refine ⟨?_, ?_, by with_unfolding_all rfl, by with_unfolding_all rfl⟩
  · by_cases hr : remaining.length > 0
    · rw [hv, if_pos hr]
      exact ⟨fun _ => hr, fun _ => rfl⟩
    · rw [hv, if_neg hr]
      constructor
      · intro hcontra
        exact absurd hcontra (by simp)
      · intro hlen
        exact absurd hlen hr
  · by_cases hr : remaining.length > 0
    · rw [hv, if_pos hr]
      constructor
      · intro hcontra
        exact absurd hcontra (by simp)
      · intro hlen
        exact absurd hlen (by omega)
    · rw [hv, if_neg hr]
      exact ⟨fun _ => by omega, fun _ => rfl⟩

/-- C5 witness: the trailing-input criterion applied to the zero-Argument
Command on input "foo". -/
theorem validate_trailing_input_witness :
    cmdZeroArgs.validate "foo" =
        .error (.tooMany "Too many argument!" ([] : List ParseErr).head?) ↔
      ("foo" : String).length > 0 :=
  (validate_trailing_input cmdZeroArgs "foo" [] "foo" []
    (by with_unfolding_all rfl)).1

/-! ## C6 — Number Argument grammar, integer check and check order -/

/-- Fixture: a Number Argument with the integer() constraint. -/
def intNumberCfg : NumberArgCfg := { name := "n", int := true }

/-- Fixture: min 5 and max 1, both violated by "3": the min error wins. -/
def minMaxNumberCfg : NumberArgCfg := { name := "n", min := some 5, max := some 1 }

/-- Fixture: integer() and positive(), both violated by "-2.5": the integer
error wins. -/
def intSignNumberCfg : NumberArgCfg :=
  { name := "n", int := true, forcePositive := true }

/-- Fixture: min 5 with an unparseable token: the format error wins. -/
def minFormatNumberCfg : NumberArgCfg := { name := "n", min := some 5 }

/-- C6: a Number Argument takes the first token of the remaining input,
raises `ParseError` unless it matches the signed-decimal grammar, and
applies the checks in the short-circuit order format, minimum, maximum,
integer, sign: every accepted value under integer() has denominator 1 (no
fractional remainder), "3.0" yields the integer value 3, an unparseable
token fails on format before the minimum check, "3" under min 5 / max 1
fails on the minimum before the maximum check, and "-2.5" under integer()
and positive() fails on the integer check before the sign check. -/
theorem number_integer_and_check_order :
    (∀ (cfg : NumberArgCfg) (args : String) (q : Rat) (r : String),
        cfg.int = true → cfg.validate args = .ok (q, r) → q.den = 1) ∧
    intNumberCfg.validate "3.0" = .ok (3, "") ∧
    minFormatNumberCfg.validate "abc" =
      .error ⟨"\"abc\" is not a valid number", "n"⟩ ∧
    minMaxNumberCfg.validate "3" =
      .error ⟨"Number not greater or equal! Expected at least 5, but got 3", "n"⟩ ∧
    intSignNumberCfg.validate "-2.5" =
      .error ⟨"Given Number is not an Integer! (-5/2)", "n"⟩ := by
  refine ⟨?_, by with_unfolding_all rfl, by with_unfolding_all rfl,
          by with_unfolding_all rfl, by with_unfolding_all rfl⟩
  intro cfg args q r hint hok
  simp only [NumberArgCfg.validate] at hok
  split at hok
  · simp at hok
  · split at hok
    · simp at hok
    · split at hok
      · simp at hok
      · split at hok
        · simp at hok
        · split at hok
          · simp at hok
          · split at hok
            · simp at hok
            · rename_i num hnum hmin hmax hpar hpos hneg
              injection hok with h1
              injection h1 with h2 h3
              subst h2
              simp [hint] at hpar
              exact hpar

/-- C6 witness: the integer-denominator property applied to the concrete
integer() Argument on the token "7". -/
theorem number_integer_and_check_order_witness : (7 : Rat).den = 1 :=
  number_integer_and_check_order.1 intNumberCfg "7" 7 "" rfl
    (by with_unfolding_all rfl)

/-! ## C7 — String Argument tokenisation, check order and length interval -/

/-- Fixture: min-length 5 and max-length 1, both violated by "abc": the
minimum-length error wins. -/
def strMinMaxCfg : StringArgCfg := { name := "s", minlen := some 5, maxlen := some 1 }

/-- Fixture: max-length 1 and an empty whitelist, both violated by "abc":
the maximum-length error wins. -/
def strMaxWhitelistCfg : StringArgCfg :=
  { name := "s", maxlen := some 1, whitelist := some [] }

/-- Fixture: an empty whitelist and a never-matching regex, both violated
by "x": the whitelist error wins. -/
def strWhitelistRegexCfg : StringArgCfg :=
  { name := "s", whitelist := some [], regex := some (fun _ => false) }

/-- Fixture: forced lower case with whitelist ["abc"]: folding happens
before the membership check, so "ABC" passes and the folded value is
returned. -/
def strFoldWhitelistCfg : StringArgCfg :=
  { name := "s", lowercase := true, whitelist := some ["abc"] }

/-- C7: a String Argument splits the remaining input at the first
whitespace boundary, takes the first token as candidate and returns the
untouched tail as rest, and applies the checks in the short-circuit order
case-folding (upper/lower mutually exclusive, last builder call wins),
minimum length, maximum length, whitelist membership, regex match; with
min-length a and max-length b configured, validation succeeds if and only
if the token length lies in the interval from a to b. -/
theorem string_checks_order_and_interval :
    (∀ (a b : Nat) (nm args : String),
        ((({ name := nm, minlen := some a, maxlen := some b } :
            StringArgCfg).validate args).isOk = true) ↔
          (a ≤ (splitFirst args).1.length ∧ (splitFirst args).1.length ≤ b)) ∧
    (∀ (cfg : StringArgCfg) (args v rest : String),
        cfg.validate args = .ok (v, rest) → rest = (splitFirst args).2) ∧
    (∀ cfg : StringArgCfg,
        (cfg.forceLowerCase.forceUpperCase.uppercase = true ∧
         cfg.forceLowerCase.forceUpperCase.lowercase = false) ∧
        (cfg.forceUpperCase.forceLowerCase.lowercase = true ∧
         cfg.forceUpperCase.forceLowerCase.uppercase = false)) ∧
    strMinMaxCfg.validate "abc" =
      .error ⟨"String length not greater or equal! Expected at least 5, but got 3", "s"⟩ ∧
    strMaxWhitelistCfg.validate "abc" =
      .error ⟨"String length not less or equal! Maximum 1 chars allowed, but got 3", "s"⟩ ∧
    strWhitelistRegexCfg.validate "x" = .error ⟨"Invalid Input for x", "s"⟩ ∧
    strFoldWhitelistCfg.validate "ABC tail x" = .ok ("abc", "tail x") := by
  refine ⟨?_, ?_, ?_, by with_unfolding_all rfl, by with_unfolding_all rfl,
          by with_unfolding_all rfl, by with_unfolding_all rfl⟩
  · intro a b nm args
    simp only [StringArgCfg.validate, StringArgCfg.validateCore]
    by_cases h1 : (splitFirst args).1.length < a
    · simp [Except.isOk, Except.toBool, h1]
    · by_cases h2 : b < (splitFirst args).1.length
      · simp [Except.isOk, Except.toBool, h1, h2]
      · simp [Except.isOk, Except.toBool, h1, h2]
        omega
  · intro cfg args v rest hok
    simp only [StringArgCfg.validate, StringArgCfg.validateCore] at hok
    repeat' split at hok
    all_goals simp at hok
    all_goals
      first
      | exact hok.2.symm
      | rw [hok]
  · intro cfg
    exact ⟨⟨rfl, rfl⟩, ⟨rfl, rfl⟩⟩

/-- C7 witness: the interval criterion applied at min 1 / max 2 on input
"ab" and the untouched-tail property applied to the same validation. -/
theorem string_checks_order_and_interval_witness :
    (((({ name := "s", minlen := some 1, maxlen := some 2 } :
        StringArgCfg).validate "ab").isOk = true) ↔
      (1 ≤ (splitFirst "ab").1.length ∧ (splitFirst "ab").1.length ≤ 2)) ∧
    "" = (splitFirst "ab").2 :=
  ⟨string_checks_order_and_interval.1 1 2 "s" "ab",
   string_checks_order_and_interval.2.1
     { name := "s", minlen := some 1, maxlen := some 2 } "ab" "ab" ""
     (by with_unfolding_all rfl)⟩

/-! ## C9 — empty input accepted by an unconstrained String Argument -/

/-- Fixture: a Command with one required String Argument named "t" without
constraints. -/
def cmdPlainString : Cmd Unit := { name := "c", args := [.str { name := "t" }] }

/-- C9: a String Argument with no minimum-length, whitelist or regex
constraint validates the empty remaining input to the empty string with
empty rest (the empty token passes every remaining check), so a Command
with one such required String Argument accepts a message without that
argument, mapping it to "" instead of raising a missing-argument
`ParseError`. -/
theorem empty_input_accepted (cfg : StringArgCfg)
    (hmin : cfg.minlen = none) (hwl : cfg.whitelist = none)
    (hre : cfg.regex = none) :
    cfg.validate "" = .ok ("", "") ∧
    cmdPlainString.validateArgs "" = .ok ([("t", .str "")], "", []) ∧
    cmdPlainString.validate "" = .ok [("t", .str "")] := by
  refine ⟨?_, by with_unfolding_all rfl, by with_unfolding_all rfl⟩
  have hsp : splitFirst "" = ("", "") := by with_unfolding_all rfl
  have hup : "".toUpper = "" := by with_unfolding_all rfl
  have hlo : "".toLower = "" := by with_unfolding_all rfl
  cases hmx : cfg.maxlen with
  | none =>
    simp [StringArgCfg.validate, StringArgCfg.validateCore, hsp, hup, hlo,
      hmin, hwl, hre, hmx]
  | some mx =>
    simp [StringArgCfg.validate, StringArgCfg.validateCore, hsp, hup, hlo,
      hmin, hwl, hre, hmx]

/-- C9 witness: the unconstrained String Argument named "t" on empty
input. -/
theorem empty_input_accepted_witness :
    ({ name := "t" } : StringArgCfg).validate "" = .ok ("", "") :=
  (empty_input_accepted { name := "t" } rfl rfl rfl).1

/-! ## C10 — empty permission-predicate list -/

/-- Fixture: a Command with an empty permission-predicate list. -/
def cmdNoPredicates : Cmd Unit := { name := "c" }

/-- C10: with an empty permission-predicate list, `isAllowed` (and hence
`hasPermission`) is true for every acting context — the logical AND over
zero predicates is vacuously true — so dispatching such a Command never
throws a `PermissionError`. -/
theorem empty_predicates_always_allowed {Ctx : Type} (cmd : Cmd Ctx)
    (client : Ctx) (hp : cmd.permissionHandlers = []) :
    cmd.isAllowed client = true ∧ cmd.hasPermission client = true ∧
    ∀ (botPerms : List Perm) (args msg : String),
      cmd.dispatch botPerms client args ≠ .failed (.permission msg) := by
  have hall : cmd.isAllowed client = true := by
    unfold Cmd.isAllowed
    rw [hp]
    rfl
  refine ⟨hall, hall, ?_⟩
  intro botPerms args msg hcontra
  unfold Cmd.dispatch at hcontra
  by_cases hsend : ((cmd.missingPerms botPerms).contains .sendMessages) = true
  · rw [if_pos hsend] at hcontra
    exact absurd hcontra (by simp)
  · rw [if_neg hsend] at hcontra
    by_cases hlen : (cmd.missingPerms botPerms).length > 0
    · rw [if_pos hlen] at hcontra
      exact absurd hcontra (by simp)
    · rw [if_neg hlen] at hcontra
      cases hval : cmd.validate args with
      | error e =>
        rw [hval] at hcontra
        have hcontra2 : DispatchOutcome.failed e =
            DispatchOutcome.failed (.permission msg) := hcontra
        injection hcontra2 with he
        exact validate_never_permission cmd args msg (he ▸ hval)
      | ok m =>
        rw [hval] at hcontra
        have hpt : cmd.hasPermission client = true := hall
        have hcontra2 : (if cmd.hasPermission client = true then
              DispatchOutcome.executed m
            else DispatchOutcome.failed
              (.permission "no permission to execute this command")) =
            DispatchOutcome.failed (.permission msg) := hcontra
        rw [if_pos hpt] at hcontra2
        exact absurd hcontra2 (by simp)

/-- C10 witness: the predicate-free Command is allowed for the unit
context. -/
theorem empty_predicates_always_allowed_witness :
    cmdNoPredicates.isAllowed () = true ∧
    cmdNoPredicates.dispatch [] () "" ≠
      .failed (.permission "no permission to execute this command") :=
  ⟨(empty_predicates_always_allowed cmdNoPredicates () rfl).1,
   (empty_predicates_always_allowed cmdNoPredicates () rfl).2.2 [] ""
     "no permission to execute this command"⟩

end Takumi
